import Mathlib

set_option maxRecDepth 10000

/-!
# Verification of the CryptexQ key-agreement and message-integrity core

A shallow embedding of the repository's Python modules into Lean 4:
`pqc_utils.py`, `dilithium_utils.py`, `client_pqc_handshake.py`,
`hmac_integrity.py`, `qkd.py` and the socket handlers of `app.py`.

Python byte strings are `List Nat` (each entry `< 256`); machine words of
SHA-256 are `Nat` reduced `% 2^32` at each arithmetic step; randomness drawn
from `os.urandom` / the `random` module is passed in explicitly as parameters;
fallible code returns `Except String`.  External libraries (`hashlib`,
`hmac`, `base64`) are reimplemented concretely below from their standard
definitions (FIPS 180-4, RFC 2104, RFC 4648), so everything is executable.
-/

namespace CryptexQ

/-! ## SHA-256 (model of `hashlib.sha256`, FIPS 180-4) -/

/-- `2^32`, the word modulus of SHA-256. -/
def M32 : Nat := 4294967296

/-- Right rotation of a 32-bit word. -/
def rotr32 (n x : Nat) : Nat := ((x >>> n) ||| (x <<< (32 - n))) % M32

/-- SHA-256 `Ch` function. -/
def shaCh (x y z : Nat) : Nat := (x &&& y) ^^^ ((x ^^^ 4294967295) &&& z)

/-- SHA-256 `Maj` function. -/
def shaMaj (x y z : Nat) : Nat := (x &&& y) ^^^ (x &&& z) ^^^ (y &&& z)

/-- SHA-256 `Σ0`. -/
def bsig0 (x : Nat) : Nat := rotr32 2 x ^^^ rotr32 13 x ^^^ rotr32 22 x

/-- SHA-256 `Σ1`. -/
def bsig1 (x : Nat) : Nat := rotr32 6 x ^^^ rotr32 11 x ^^^ rotr32 25 x

/-- SHA-256 `σ0`. -/
def ssig0 (x : Nat) : Nat := rotr32 7 x ^^^ rotr32 18 x ^^^ (x >>> 3)

/-- SHA-256 `σ1`. -/
def ssig1 (x : Nat) : Nat := rotr32 17 x ^^^ rotr32 19 x ^^^ (x >>> 10)

/-- The 64 SHA-256 round constants. -/
def sha256K : List Nat :=
  [1116352408, 1899447441, 3049323471, 3921009573, 961987163, 1508970993,
   2453635748, 2870763221, 3624381080, 310598401, 607225278, 1426881987,
   1925078388, 2162078206, 2614888103, 3248222580, 3835390401, 4022224774,
   264347078, 604807628, 770255983, 1249150122, 1555081692, 1996064986,
   2554220882, 2821834349, 2952996808, 3210313671, 3336571891, 3584528711,
   113926993, 338241895, 666307205, 773529912, 1294757372, 1396182291,
   1695183700, 1986661051, 2177026350, 2456956037, 2730485921, 2820302411,
   3259730800, 3345764771, 3516065817, 3600352804, 4094571909, 275423344,
   430227734, 506948616, 659060556, 883997877, 958139571, 1322822218,
   1537002063, 1747873779, 1955562222, 2024104815, 2227730452, 2361852424,
   2428436474, 2756734187, 3204031479, 3329325298]

/-- The eight-word working state of the compression function. -/
structure Hash8 where
  a : Nat
  b : Nat
  c : Nat
  d : Nat
  e : Nat
  f : Nat
  g : Nat
  h : Nat
deriving Repr, DecidableEq

/-- The SHA-256 initial hash value. -/
def sha256H0 : Hash8 :=
  { a := 1779033703, b := 3144134277, c := 1013904242, d := 2773480762,
    e := 1359893119, f := 2600822924, g := 528734635, h := 1541459225 }

/-- Parse big-endian 32-bit words out of a byte list (fuel-bounded so the
kernel can reduce it). -/
def beWords : Nat → List Nat → List Nat
  | 0, _ => []
  | fuel + 1, b0 :: b1 :: b2 :: b3 :: rest =>
      (((b0 * 256 + b1) * 256 + b2) * 256 + b3) :: beWords fuel rest
  | _ + 1, _ => []

/-- Extend the 16 message words to the 64-word schedule. -/
def extendSchedule (w0 : List Nat) : List Nat :=
  (List.range 48).foldl
    (fun w _ =>
      let k := w.length
      w ++ [(ssig1 (w.getD (k - 2) 0) + w.getD (k - 7) 0 +
             ssig0 (w.getD (k - 15) 0) + w.getD (k - 16) 0) % M32])
    w0

/-- One round of the SHA-256 compression function. -/
def sha256Round (w : List Nat) (st : Hash8) (i : Nat) : Hash8 :=
  let t1 := (st.h + bsig1 st.e + shaCh st.e st.f st.g +
             sha256K.getD i 0 + w.getD i 0) % M32
  let t2 := (bsig0 st.a + shaMaj st.a st.b st.c) % M32
  { a := (t1 + t2) % M32, b := st.a, c := st.b, d := st.c,
    e := (st.d + t1) % M32, f := st.e, g := st.f, h := st.g }

/-- Process one 64-byte block. -/
def sha256Block (st : Hash8) (block : List Nat) : Hash8 :=
  let w := extendSchedule (beWords 16 block)
  let t := (List.range 64).foldl (sha256Round w) st
  { a := (st.a + t.a) % M32, b := (st.b + t.b) % M32, c := (st.c + t.c) % M32,
    d := (st.d + t.d) % M32, e := (st.e + t.e) % M32, f := (st.f + t.f) % M32,
    g := (st.g + t.g) % M32, h := (st.h + t.h) % M32 }

/-- Big-endian bytes of a 64-bit length field. -/
def toBE8 (n : Nat) : List Nat :=
  [(n >>> 56) % 256, (n >>> 48) % 256, (n >>> 40) % 256, (n >>> 32) % 256,
   (n >>> 24) % 256, (n >>> 16) % 256, (n >>> 8) % 256, n % 256]

/-- Big-endian bytes of a 32-bit word. -/
def toBE4 (n : Nat) : List Nat :=
  [(n >>> 24) % 256, (n >>> 16) % 256, (n >>> 8) % 256, n % 256]

/-- MD-style padding: `0x80`, zeros, then the 64-bit bit length. -/
def sha256Pad (msg : List Nat) : List Nat :=
  let L := msg.length
  msg ++ [128] ++ List.replicate ((64 - ((L + 9) % 64)) % 64) 0 ++ toBE8 (8 * L)

/-- Split into 64-byte blocks (fuel-bounded). -/
def chunk64 : Nat → List Nat → List (List Nat)
  | 0, _ => []
  | _ + 1, [] => []
  | fuel + 1, l => l.take 64 :: chunk64 fuel (l.drop 64)

/-- SHA-256 of a byte list, as a 32-entry byte list. -/
def sha256 (msg : List Nat) : List Nat :=
  let padded := sha256Pad msg
  let fin := (chunk64 padded.length padded).foldl sha256Block sha256H0
  toBE4 fin.a ++ toBE4 fin.b ++ toBE4 fin.c ++ toBE4 fin.d ++
  toBE4 fin.e ++ toBE4 fin.f ++ toBE4 fin.g ++ toBE4 fin.h

/-- The bytes of an ASCII string (UTF-8 agrees with the code points below
128, and every string the program hashes is ASCII). -/
def strBytes (s : String) : List Nat := s.data.map Char.toNat

/-! ## Hex digests and HMAC-SHA256 (models of `.hexdigest()` and `hmac.new`) -/

/-- Lower-case hex digit. -/
def hexDigit (n : Nat) : Char :=
  if n < 10 then Char.ofNat (48 + n) else Char.ofNat (87 + n)

/-- The two hex characters of one byte. -/
def hexByte (b : Nat) : List Char := [hexDigit (b / 16), hexDigit (b % 16)]

/-- Lower-case hexadecimal rendering of a byte list, as `hexdigest` does. -/
def hexStr (l : List Nat) : String := { data := l.flatMap hexByte }

/-- HMAC-SHA256 over byte lists (RFC 2104, block size 64), the function
behind Python's `hmac.new(secret, data, hashlib.sha256)`. -/
def hmacSha256 (key msg : List Nat) : List Nat :=
  let k0 := if key.length > 64 then sha256 key else key
  let kp := k0 ++ List.replicate (64 - k0.length) 0
  let ipadKey := kp.map (fun b => b ^^^ 54)
  let opadKey := kp.map (fun b => b ^^^ 92)
  sha256 (opadKey ++ sha256 (ipadKey ++ msg))

/-- Python's `str` on a non-negative integer: its decimal representation. -/
def natStr (n : Nat) : String := Nat.repr n

/-! ## Base64 (model of `base64.b64encode` / `b64decode`, RFC 4648) -/

/-- The base64 alphabet. -/
def b64Alphabet : List Char :=
  "ABCDEFGHIJKLMNOPQRSTUVWXYZabcdefghijklmnopqrstuvwxyz0123456789+/".data

/-- Character for a 6-bit value. -/
def b64Char (n : Nat) : Char := b64Alphabet.getD n 'A'

/-- 6-bit value of an alphabet character. -/
def b64Val (c : Char) : Nat := b64Alphabet.indexOf c

/-- Encode bytes three at a time into base64 characters, `=`-padded
(fuel-bounded on the byte count so the kernel can reduce it). -/
def b64EncodeChunks : Nat → List Nat → List Char
  | 0, _ => []
  | _ + 1, [] => []
  | _ + 1, [b0] =>
      [b64Char (b0 / 4), b64Char ((b0 % 4) * 16), '=', '=']
  | _ + 1, [b0, b1] =>
      [b64Char (b0 / 4), b64Char ((b0 % 4) * 16 + b1 / 16),
       b64Char ((b1 % 16) * 4), '=']
  | fuel + 1, b0 :: b1 :: b2 :: rest =>
      b64Char (b0 / 4) :: b64Char ((b0 % 4) * 16 + b1 / 16) ::
      b64Char ((b1 % 16) * 4 + b2 / 64) :: b64Char (b2 % 64) ::
      b64EncodeChunks fuel rest

/-- `base64.b64encode(...).decode()`. -/
def b64_encode (l : List Nat) : String := { data := b64EncodeChunks l.length l }

/-- Decode 6-bit values four at a time back into bytes; the final group may
have two or three values after padding was stripped. -/
def b64DecodeVals : Nat → List Nat → List Nat
  | 0, _ => []
  | _ + 1, [] => []
  | _ + 1, [_] => []
  | _ + 1, [v0, v1] => [v0 * 4 + v1 / 16]
  | _ + 1, [v0, v1, v2] => [v0 * 4 + v1 / 16, (v1 % 16) * 16 + v2 / 4]
  | fuel + 1, v0 :: v1 :: v2 :: v3 :: rest =>
      (v0 * 4 + v1 / 16) :: ((v1 % 16) * 16 + v2 / 4) ::
      ((v2 % 4) * 64 + v3) :: b64DecodeVals fuel rest

/-- `base64.b64decode` on a well-formed encoding: strip padding, map the
alphabet back to 6-bit values, reassemble bytes. -/
def b64_decode (s : String) : List Nat :=
  let vals := (s.data.filter (fun c => c ≠ '=')).map b64Val
  b64DecodeVals vals.length vals

/-! ## `pqc_utils.py` — KEM provider with simulated fallback

The real backends (`pqcrypto.kem.kyber512` / `frodokem640aes`) are outside
this repository; they are modelled as an optional `KemLib` record whose
operations take their randomness explicitly.  `lib = none` is the
`_HAS_KYBER = False` / `_HAS_FRODO = False` simulated mode.  `os.urandom`
draws are explicit `List Nat` parameters collected in `PqcRand`. -/

/-- An external KEM backend: key generation and encapsulation take their
randomness as an explicit first argument. -/
structure KemLib where
  keygen : List Nat → List Nat × List Nat
  encaps : List Nat → List Nat → List Nat × List Nat
  decaps : List Nat → List Nat → List Nat

/-- KEM correctness of a backend: decapsulating the ciphertext produced
against the public key with the matching secret key returns the
encapsulated shared secret. -/
def KemCorrect (lib : KemLib) : Prop :=
  ∀ kr er,
    lib.decaps (lib.keygen kr).2 (lib.encaps (lib.keygen kr).1 er).1 =
      (lib.encaps (lib.keygen kr).1 er).2

/-- `SIMULATED_KYBER_SECRET`: SHA-256 of the constant label, truncated to
32 bytes. -/
def SIMULATED_KYBER_SECRET : List Nat :=
  (sha256 (strBytes "simulated_kyber_shared_secret")).take 32

/-- `SIMULATED_FRODO_SECRET`: SHA-256 of the constant label, truncated to
32 bytes. -/
def SIMULATED_FRODO_SECRET : List Nat :=
  (sha256 (strBytes "simulated_frodo_shared_secret")).take 32

/-- The explicit `os.urandom` draws of one `pqc_utils` call. -/
structure PqcRand where
  keyRand : List Nat
  pkSim : List Nat
  skSim : List Nat
  ctSim : List Nat

/-- `generate_kyber_keypair`. -/
def generate_kyber_keypair (lib : Option KemLib) (r : PqcRand) :
    List Nat × List Nat :=
  match lib with
  | some l => l.keygen r.keyRand
  | none => (r.pkSim, r.skSim)

/-- `kyber_encapsulate_with_pk`. -/
def kyber_encapsulate_with_pk (lib : Option KemLib) (r : PqcRand)
    (public_key : List Nat) : List Nat × List Nat :=
  match lib with
  | some l => l.encaps public_key r.keyRand
  | none => (r.ctSim, SIMULATED_KYBER_SECRET)

/-- `kyber_decapsulate_with_sk`. -/
def kyber_decapsulate_with_sk (lib : Option KemLib)
    (secret_key ciphertext : List Nat) : List Nat :=
  match lib with
  | some l => l.decaps secret_key ciphertext
  | none => SIMULATED_KYBER_SECRET

/-- `generate_frodo_keypair`. -/
def generate_frodo_keypair (lib : Option KemLib) (r : PqcRand) :
    List Nat × List Nat :=
  match lib with
  | some l => l.keygen r.keyRand
  | none => (r.pkSim, r.skSim)

/-- `frodo_encapsulate_with_pk`. -/
def frodo_encapsulate_with_pk (lib : Option KemLib) (r : PqcRand)
    (public_key : List Nat) : List Nat × List Nat :=
  match lib with
  | some l => l.encaps public_key r.keyRand
  | none => (r.ctSim, SIMULATED_FRODO_SECRET)

/-- `frodo_decapsulate_with_sk`. -/
def frodo_decapsulate_with_sk (lib : Option KemLib)
    (secret_key ciphertext : List Nat) : List Nat :=
  match lib with
  | some l => l.decaps secret_key ciphertext
  | none => SIMULATED_FRODO_SECRET

/-- `generate_pqc_keypair`: algorithm dispatch, `ValueError` on anything
but `"kyber"` / `"frodo"`. `kyberLib` and `frodoLib` are the loaded real
backends, when present. -/
def generate_pqc_keypair (kyberLib frodoLib : Option KemLib) (r : PqcRand)
    (algorithm : String) : Except String (List Nat × List Nat) :=
  if algorithm = "kyber" then .ok (generate_kyber_keypair kyberLib r)
  else if algorithm = "frodo" then .ok (generate_frodo_keypair frodoLib r)
  else .error "Unsupported PQC algorithm"

/-- `pqc_encapsulate`. -/
def pqc_encapsulate (kyberLib frodoLib : Option KemLib) (r : PqcRand)
    (public_key : List Nat) (algorithm : String) :
    Except String (List Nat × List Nat) :=
  if algorithm = "kyber" then .ok (kyber_encapsulate_with_pk kyberLib r public_key)
  else if algorithm = "frodo" then .ok (frodo_encapsulate_with_pk frodoLib r public_key)
  else .error "Unsupported PQC algorithm"

/-- `pqc_decapsulate`. -/
def pqc_decapsulate (kyberLib frodoLib : Option KemLib)
    (secret_key ciphertext : List Nat) (algorithm : String) :
    Except String (List Nat) :=
  if algorithm = "kyber" then .ok (kyber_decapsulate_with_sk kyberLib secret_key ciphertext)
  else if algorithm = "frodo" then .ok (frodo_decapsulate_with_sk frodoLib secret_key ciphertext)
  else .error "Unsupported PQC algorithm"

/-! ## `dilithium_utils.py` and `client_pqc_handshake.py` -/

/-- An external signature backend (`pqcrypto.sign.dilithium2`): `verify`
is its try/except wrapper outcome. -/
structure SignLib where
  verifyOk : List Nat → List Nat → List Nat → Bool

/-- `SIMULATED_SIGN_SECRET`: SHA-256 of the constant label. -/
def SIMULATED_SIGN_SECRET : List Nat :=
  sha256 (strBytes "simulated_dilithium_secret")

/-- `dilithium_verify_signature`: real backend when loaded, otherwise
recompute `sha256(message ++ SIMULATED_SIGN_SECRET)` and compare. -/
def dilithium_verify_signature (lib : Option SignLib)
    (public_key message signature : List Nat) : Bool :=
  match lib with
  | some l => l.verifyOk public_key message signature
  | none => signature = sha256 (message ++ SIMULATED_SIGN_SECRET)

/-- The handshake dict sent by `server_prepare_pqc_handshake` (minus the
server-held secret key, which the client never reads). -/
structure HandshakeData where
  pqc_public_key : List Nat
  dilithium_public_key : List Nat
  signature : List Nat
  pqc_algorithm : String

/-- `client_verify_and_encapsulate`: verify the signature on the KEM
public key first; on failure raise (here: return `.error`) without ever
encapsulating; only after `is_valid` encapsulate against the key. -/
def client_verify_and_encapsulate (signLib : Option SignLib)
    (kyberLib frodoLib : Option KemLib) (r : PqcRand)
    (handshake_data : HandshakeData) : Except String (List Nat × List Nat) :=
  let is_valid := dilithium_verify_signature signLib
    handshake_data.dilithium_public_key handshake_data.pqc_public_key
    handshake_data.signature
  if is_valid then
    pqc_encapsulate kyberLib frodoLib r handshake_data.pqc_public_key
      handshake_data.pqc_algorithm
  else
    .error "Invalid PQC public key signature"

/-! ## `hmac_integrity.py` — the message integrity guard

A message is a Python dict; the fields the module reads or writes are
modelled as `Option` fields (`none` = key absent), and every other key is
carried opaquely in `rest` so "the remaining fields are untouched" is
expressible.  The process-wide secret of `get_hmac_secret()` (environment
variable or `.hmac_secret` file) is a parameter.  The `from` key is named
`fromId` because `from` is a Lean keyword. -/

/-- The value found under the `integrity` key: a dict with optional
`type` / `value` entries, or any non-dict value. -/
inductive IntegrityData where
  | mk (itype : Option String) (ivalue : Option String)
  | nonDict
deriving Repr, DecidableEq

/-- A message envelope. -/
structure Envelope where
  ciphertext_b64 : Option String
  message : Option String
  timestamp : Option String
  fromId : Option String
  integrity : Option IntegrityData
  rest : List (String × String)
deriving Repr, DecidableEq

/-- `message_data.get('ciphertext_b64', '') or message_data.get('message', '')`:
the first field when present and non-empty (Python truthiness), else the
second (or `''`). -/
def envContent (m : Envelope) : String :=
  let c := m.ciphertext_b64.getD ""
  if c ≠ "" then c else m.message.getD ""

/-- `message_data.get('from', 'unknown')`. -/
def envSender (m : Envelope) : String := m.fromId.getD "unknown"

/-- `generate_hmac`: HMAC-SHA256 over `content|timestamp|senderId`,
rendered in hex. -/
def generate_hmac (message_content timestamp sender_id : String)
    (secret : List Nat) : String :=
  let data_to_sign := message_content ++ "|" ++ timestamp ++ "|" ++ sender_id
  hexStr (hmacSha256 secret (strBytes data_to_sign))

/-- `add_message_integrity`: assign a millisecond wall-clock timestamp when
the key is absent (`nowMs` is the sampled `time.time() * 1000`), then attach
`{'type': 'HMAC_SHA256', 'value': hmac}` over content, timestamp and
sender. -/
def add_message_integrity (secret : List Nat) (nowMs : Nat)
    (message_data : Envelope) : Envelope :=
  let md := if message_data.timestamp = none then
      { message_data with timestamp := some (natStr nowMs) }
    else message_data
  let hmac_value :=
    generate_hmac (envContent md) (md.timestamp.getD "") (envSender md) secret
  { md with integrity := some (.mk (some "HMAC_SHA256") (some hmac_value)) }

/-- `wrap_outgoing_message`: in this total model `add_message_integrity`
cannot raise, so the try/except wrapper is the function itself. -/
def wrap_outgoing_message (secret : List Nat) (nowMs : Nat)
    (message_data : Envelope) : Envelope :=
  add_message_integrity secret nowMs message_data

/-- `verify_message_integrity`, check for check in source order: missing
integrity field, non-dict integrity, unsupported type, missing/empty HMAC
value, empty/missing timestamp, then the constant-time tag comparison. -/
def verify_message_integrity (secret : List Nat) (message_data : Envelope) :
    Bool × String :=
  match message_data.integrity with
  | none => (false, "Missing integrity field - message may be from legacy sender")
  | some .nonDict => (false, "Invalid integrity field format")
  | some (.mk itype ivalue) =>
    if itype ≠ some "HMAC_SHA256" then
      (false, "Unsupported integrity type: " ++
        (match itype with | none => "None" | some t => t))
    else
      let received_hmac := ivalue.getD ""
      if received_hmac = "" then
        (false, "Missing HMAC value in integrity field")
      else
        let message_content := envContent message_data
        let timestamp := message_data.timestamp.getD ""
        let sender_id := envSender message_data
        if timestamp = "" then
          (false, "Missing timestamp - cannot verify integrity")
        else
          let computed_hmac := generate_hmac message_content timestamp sender_id secret
          if received_hmac ≠ computed_hmac then
            (false, "HMAC mismatch - message has been tampered with")
          else
            (true, "")

/-! ## `qkd.py` — simulated BB84 channel

`generate_qkd_key` samples Alice's bits, both basis strings, Bob's
measurement results at mismatched positions, and per-position noise coins
`random.random() < error_rate`; all five draws are explicit parameters
here (the float `error_rate` only ever feeds the noise coins, so it is
absorbed into `noiseCoins`). -/

/-- Zip three lists, as Python's `zip`. -/
def zip3 : List α → List β → List γ → List (α × β × γ)
  | a :: as_, b :: bs, c :: cs => (a, b, c) :: zip3 as_ bs cs
  | _, _, _ => []

/-- Bob's raw measurement results: the sender bit where bases match, the
next `random.randint(0, 1)` draw where they differ. -/
def bobMeasure : List (Nat × String × String) → List Nat → List Nat
  | [], _ => []
  | (bit, a_base, b_base) :: rest, meas =>
    if a_base = b_base then bit :: bobMeasure rest meas
    else meas.headD 0 :: bobMeasure rest meas.tail

/-- The noise loop: flip each result whose coin came up true. -/
def addNoise (results : List Nat) (coins : List Bool) : List Nat :=
  List.zipWith (fun b c => if c then 1 - b else b) results coins

/-- Sifting: keep Alice's bit exactly at the positions where the two basis
choices agree. -/
def siftKey (bits : List Nat) (alice_bases bob_bases : List String) : List Nat :=
  (zip3 bits alice_bases bob_bases).filterMap
    (fun t => if t.2.1 = t.2.2 then some t.1 else none)

/-- The trailing even-parity fix: flip the last bit when the sum is odd. -/
def parityFix (shared_key : List Nat) : List Nat :=
  if shared_key ≠ [] ∧ shared_key.sum % 2 ≠ 0 then
    shared_key.dropLast ++ [1 - shared_key.getLastD 0]
  else shared_key

/-- `generate_qkd_key` with its randomness explicit.  `_bob_results` is the
receiver-side simulation the source computes and then never uses for the
returned key. -/
def generate_qkd_key (alice_bits : List Nat) (alice_bases bob_bases : List String)
    (measRand : List Nat) (noiseCoins : List Bool) : List Nat :=
  let _bob_results := addNoise (bobMeasure (zip3 alice_bits alice_bases bob_bases) measRand) noiseCoins
  let shared_key := siftKey alice_bits alice_bases bob_bases
  parityFix shared_key

/-- `derive_aes_key_from_qkd`: render the bits as a `"0"`/`"1"` string and
take its SHA-256 digest (32 bytes). -/
def derive_aes_key_from_qkd (qkd_bit_list : List Nat) : List Nat :=
  let bit_string := String.join (qkd_bit_list.map natStr)
  sha256 (strBytes bit_string)

/-! ## `app.py` — socket state and handlers

`USERS` is a Python dict `username -> {"sid": ..., "pub": ..., "kyber": ...}`,
modelled as an insertion-ordered association list.  Note the stored info
dict has exactly the keys `"sid"`, `"pub"` and `"kyber"`; `infoGetStr`
models `.get` for string-valued keys on it. -/

/-- One `USERS` entry: transport sid, the classical public key the client
sent as `x25519_pub_b64` (stored under the key `"pub"`), and the
server-side KEM keypair when generation succeeded. -/
structure UserInfo where
  sid : Nat
  pub : String
  kyber : Option (List Nat × List Nat)
deriving Repr, DecidableEq

/-- The registry. -/
abbrev Users := List (String × UserInfo)

/-- `info.get(key)` for string-valued keys of the stored info dict: only
`"pub"` holds a string; any other string key — in particular
`"x25519_pub_b64"` — is absent and yields `None`. -/
def infoGetStr (info : UserInfo) (key : String) : Option String :=
  if key = "pub" then some info.pub else none

/-- Python dict assignment `USERS[username] = v`: overwrite in place when
the key exists, else append. -/
def dictSet (m : Users) (k : String) (v : UserInfo) : Users :=
  if (m.lookup k).isSome then
    m.map (fun p => if p.1 = k then (k, v) else p)
  else m ++ [(k, v)]

/-- Registry lookup, `USERS.get(username)`. -/
def usersLookup (m : Users) (k : String) : Option UserInfo := m.lookup k

/-- Events the handlers emit. -/
inductive Emitted where
  | errorEvt (payload : String)
  | registered (username kyber_pub_b64 : String)
  | onlineUsers (users : List String)
  | kyberSharedForInitiator (room : Nat) (fromUser : String)
      (kyber_ss_b64 : String) (peer_x25519_b64 : Option String)
      (cipher_b64 : String)
  | kyberReadyPeer (room : Nat) (fromUser : String) (cipher_b64 : String)
      (initiator_x25519_b64 : Option String) (kyber_ss_b64 : String)
  | sessionInitiated (ok : Bool)
  | qkdSharedKey (room : Nat) (peer : String) (shared_b64 : String)
deriving Repr, DecidableEq

/-- `handle_register`: validate, store `{"sid": sid, "pub": pub}` under the
username, attach a KEM keypair (real via `oqs` when available, else two
`os.urandom` draws, both modelled by `kyberKeys`), then emit `registered`
and the online-user list. -/
def handle_register (users : Users) (sid : Nat)
    (username pub_b64 : Option String) (kyberKeys : List Nat × List Nat) :
    Users × List Emitted :=
  match username, pub_b64 with
  | some u, some p =>
    if u = "" ∨ p = "" then
      (users, [.errorEvt "Invalid registration data"])
    else
      let info : UserInfo := { sid := sid, pub := p, kyber := some kyberKeys }
      let users1 := dictSet users u info
      (users1, [.registered u (b64_encode kyberKeys.1),
                .onlineUsers (users1.map Prod.fst)])
  | _, _ => (users, [.errorEvt "Invalid registration data"])

/-- `on_disconnect`: scan the registry in insertion order, pop the FIRST
entry whose sid matches and stop (`break`), then broadcast the survivor
list. -/
def removeFirstBySid : Users → Nat → Users
  | [], _ => []
  | (u, info) :: rest, sid =>
    if info.sid = sid then rest
    else (u, info) :: removeFirstBySid rest sid

/-- The disconnect handler's final registry state. -/
def on_disconnect (users : Users) (sid : Nat) : Users :=
  removeFirstBySid users sid

/-- The `os.urandom` draws of the simulated branch of
`handle_request_start`. -/
structure SessionRand where
  ctRand : List Nat
  ssRand : List Nat

/-- `handle_request_start` (hybrid PQC mode), simulated branch
(`oqs.KeyEncapsulation` unavailable): both shared secrets are the same
fresh random bytes.  The two session events are emitted, then
`session_initiated`, and then — the source repeats the whole emit block —
all three again.  The initiator event's `peer_x25519_b64` is
`peer_info.get("x25519_pub_b64")`, a key the stored info dict does not
have, and symmetrically for the peer event. -/
def handle_request_start (users : Users) (initiator peer : Option String)
    (r : SessionRand) : List Emitted :=
  match initiator, peer with
  | some ini, some p =>
    if ini = "" ∨ p = "" then [.errorEvt "from/to required"]
    else
      match usersLookup users ini, usersLookup users p with
      | some initiator_info, some peer_info =>
        let ciphertext := r.ctRand
        let ss_initiator := r.ssRand
        let ss_peer := ss_initiator
        let ct_b64 := b64_encode ciphertext
        let ss_initiator_b64 := b64_encode ss_initiator
        let ss_peer_b64 := b64_encode ss_peer
        let toInitiator : Emitted := .kyberSharedForInitiator
          initiator_info.sid p ss_initiator_b64
          (infoGetStr peer_info "x25519_pub_b64") ct_b64
        let toPeer : Emitted := .kyberReadyPeer
          peer_info.sid ini ct_b64
          (infoGetStr initiator_info "x25519_pub_b64") ss_peer_b64
        [toInitiator, toPeer, .sessionInitiated true,
         toInitiator, toPeer, .sessionInitiated true]
      | _, _ => [.errorEvt "user(s) not online"]
  | _, _ => [.errorEvt "from/to required"]

/-- `handle_start_qkd_session`: validate both parties are online, run the
simulated quantum channel (`generate_qkd_key(512)`, its randomness passed
through explicitly), derive the 32-byte AES key, and send the identical
base64 key to both sids. -/
def handle_start_qkd_session (users : Users) (initiator peer : Option String)
    (alice_bits : List Nat) (alice_bases bob_bases : List String)
    (measRand : List Nat) (noiseCoins : List Bool) : List Emitted :=
  match initiator, peer with
  | some ini, some p =>
    if ini = "" ∨ p = "" then [.errorEvt "from/to required"]
    else
      match usersLookup users ini, usersLookup users p with
      | some initiator_info, some peer_info =>
        let qkd_bits := generate_qkd_key alice_bits alice_bases bob_bases measRand noiseCoins
        let shared_key_bytes := derive_aes_key_from_qkd qkd_bits
        let shared_b64 := b64_encode shared_key_bytes
        [.qkdSharedKey initiator_info.sid p shared_b64,
         .qkdSharedKey peer_info.sid ini shared_b64]
      | _, _ => [.errorEvt "user(s) not online"]
  | _, _ => [.errorEvt "from/to required"]

/-! ## Concrete scenario inputs used by witnesses and counterexamples -/

/-- A registry with Alice online at sid 1 and Bob at sid 2, built through
`handle_register` exactly as the socket layer would. -/
def demoUsers : Users :=
  (handle_register
    (handle_register [] 1 (some "Alice") (some "PK_A") ([3], [4])).1
    2 (some "Bob") (some "PK_B") ([5], [6])).1

/-- A registry where two identities registered over the same transport
connection (both have sid 1), which the `register` handler permits. -/
def sharedSidUsers : Users :=
  [("Alice", { sid := 1, pub := "PA", kyber := none }),
   ("Bob", { sid := 1, pub := "PB", kyber := none })]

/-- A small outgoing message. -/
def demoMsg : Envelope :=
  { ciphertext_b64 := some "SGVsbG8=", message := none, timestamp := none,
    fromId := some "Alice", integrity := none, rest := [("to", "Bob")] }

/-! # Theorems

General lemmas first, then one theorem per claim (with its witness or
counterexample). -/

/-! ## General-purpose lemmas -/

/-- `Nat.toDigitsCore` never shrinks its accumulator. -/
theorem toDigitsCore_length_le (b : Nat) :
    ∀ (fuel n : Nat) (acc : List Char),
      acc.length ≤ (Nat.toDigitsCore b fuel n acc).length := by
  intro fuel
  induction fuel with
  | zero => intro n acc; simp [Nat.toDigitsCore]
  | succ f ih =>
    intro n acc
    simp only [Nat.toDigitsCore]
    by_cases hq : n / b = 0
    · simp [hq]
    · simp only [hq, if_false]
      calc acc.length ≤ (Nat.digitChar (n % b) :: acc).length := by simp
        _ ≤ _ := ih _ _

/-- Decimal digit lists are never empty. -/
theorem toDigits_ne_nil (b n : Nat) : Nat.toDigits b n ≠ [] := by
  unfold Nat.toDigits
  simp only [Nat.toDigitsCore]
  by_cases hq : n / b = 0
  · simp [hq]
  · simp only [hq, if_false]
    intro hc
    have hle := toDigitsCore_length_le b n (n / b) [Nat.digitChar (n % b)]
    rw [hc] at hle
    simp at hle

/-- Python's `str` of a natural number is never the empty string. -/
theorem natStr_ne_empty (n : Nat) : natStr n ≠ "" := by
  intro h
  exact toDigits_ne_nil 10 n (congrArg String.data h)

/-- SHA-256 digests have exactly 32 bytes. -/
theorem sha256_length (msg : List Nat) : (sha256 msg).length = 32 := by
  simp [sha256, toBE4]

/-- Each limb of a big-endian word rendering is a byte. -/
theorem toBE4_lt (n : Nat) : ∀ b ∈ toBE4 n, b < 256 := by
  simp only [toBE4, List.mem_cons, List.not_mem_nil, or_false]
  rintro b (rfl | rfl | rfl | rfl) <;> exact Nat.mod_lt _ (by omega)

/-- Every entry of a SHA-256 digest is a byte. -/
theorem sha256_mem_lt (msg : List Nat) : ∀ b ∈ sha256 msg, b < 256 := by
  intro b hb
  simp only [sha256, List.mem_append] at hb
  rcases hb with ((((((h | h) | h) | h) | h) | h) | h) | h <;>
    exact toBE4_lt _ _ h

/-- HMAC-SHA256 digests have exactly 32 bytes. -/
theorem hmacSha256_length (key msg : List Nat) :
    (hmacSha256 key msg).length = 32 := by
  simp only [hmacSha256]
  exact sha256_length _

/-- Hex strings of non-empty byte lists are non-empty. -/
theorem hexStr_ne_empty {l : List Nat} (h : l ≠ []) : hexStr l ≠ "" := by
  cases l with
  | nil => exact absurd rfl h
  | cons b t =>
    intro hc
    have hdata := congrArg String.data hc
    simp [hexStr, hexByte] at hdata

/-- The tag `generate_hmac` attaches is never the empty string (so the
`Missing HMAC value` branch of verification can not fire on a sealed
message). -/
theorem generate_hmac_ne_empty (c t s : String) (secret : List Nat) :
    generate_hmac c t s secret ≠ "" := by
  apply hexStr_ne_empty
  intro hnil
  have h32 := hmacSha256_length secret
    (strBytes (c ++ "|" ++ t ++ "|" ++ s))
  rw [hnil] at h32
  simp at h32

/-! ## C6 — opening an envelope with no integrity field -/

/-- C6: for every envelope with no `integrity` key, `verify_message_integrity`
returns the missing-integrity error — and in particular never the HMAC
mismatch error; the missing-tag check is decided before any HMAC work. -/
theorem verify_missing_integrity_is_missing_error
    (secret : List Nat) (m : Envelope) (h : m.integrity = none) :
    verify_message_integrity secret m =
      (false, "Missing integrity field - message may be from legacy sender") ∧
    verify_message_integrity secret m ≠
      (false, "HMAC mismatch - message has been tampered with") := by
  constructor
  · simp [verify_message_integrity, h]
  · simp [verify_message_integrity, h]

/-- Witness for C6 at a concrete tag-less envelope. -/
theorem verify_missing_integrity_is_missing_error_witness :
    demoMsg.integrity = none ∧
    verify_message_integrity [1, 2, 3] demoMsg =
      (false, "Missing integrity field - message may be from legacy sender") :=
  ⟨rfl, (verify_missing_integrity_is_missing_error [1, 2, 3] demoMsg rfl).1⟩

/-! ## C10 — the QKD key ignores receiver noise and the error rate -/

/-- C10: `generate_qkd_key` depends only on the sender bits and the two
basis sequences.  The simulated receiver measurements and the noise coins
(the only place the `error_rate` parameter feeds into) never influence the
returned key: two runs agreeing on bits and bases but with arbitrary other
randomness return the same bit list. -/
theorem generate_qkd_key_ignores_noise
    (alice_bits : List Nat) (alice_bases bob_bases : List String)
    (meas1 meas2 : List Nat) (coins1 coins2 : List Bool) :
    generate_qkd_key alice_bits alice_bases bob_bases meas1 coins1 =
      generate_qkd_key alice_bits alice_bases bob_bases meas2 coins2 := rfl

/-! ## C8 — sifting and the trailing even-parity fix -/

/-- First components of a triple zip come from the first list. -/
theorem zip3_mem_left {α β γ : Type} :
    ∀ (a : List α) (b : List β) (c : List γ) (t : α × β × γ),
      t ∈ zip3 a b c → t.1 ∈ a := by
  intro a
  induction a with
  | nil => intro b c t h; simp [zip3] at h
  | cons x xs ih =>
    intro b c t h
    cases b with
    | nil => simp [zip3] at h
    | cons y ys =>
      cases c with
      | nil => simp [zip3] at h
      | cons z zs =>
        simp only [zip3, List.mem_cons] at h
        rcases h with rfl | h
        · simp
        · exact List.mem_cons_of_mem _ (ih ys zs t h)

/-- Every sifted bit is one of Alice's raw bits. -/
theorem siftKey_mem {alice_bits : List Nat} {ab bb : List String} :
    ∀ x ∈ siftKey alice_bits ab bb, x ∈ alice_bits := by
  intro x hx
  simp only [siftKey, List.mem_filterMap] at hx
  obtain ⟨t, ht, hf⟩ := hx
  by_cases hmatch : t.2.1 = t.2.2
  · simp only [hmatch, if_true, Option.some.injEq] at hf
    exact hf ▸ zip3_mem_left _ _ _ t ht
  · simp [hmatch] at hf

/-- What the trailing parity fix does to a 0/1 list: it returns the list
itself or the list with its final bit flipped, the result has even bit
sum whenever non-empty, and the length never changes. -/
theorem parityFix_spec (l : List Nat) (h01 : ∀ b ∈ l, b ≤ 1) :
    (parityFix l = l ∨ parityFix l = l.dropLast ++ [1 - l.getLastD 0]) ∧
    (parityFix l ≠ [] → (parityFix l).sum % 2 = 0) ∧
    (parityFix l).length = l.length := by
  rcases List.eq_nil_or_concat l with rfl | ⟨L, b, rfl⟩
  · refine ⟨Or.inl rfl, ?_, rfl⟩
    intro h
    exact absurd rfl h
  · simp only [List.concat_eq_append] at h01 ⊢
    have hb : b ≤ 1 := h01 b (by simp)
    have hdrop : (L ++ [b]).dropLast = L := by simp
    have hlast : (L ++ [b]).getLastD 0 = b := by simp
    by_cases hpar : (L ++ [b]).sum % 2 = 0
    · have hfix : parityFix (L ++ [b]) = L ++ [b] := by
        unfold parityFix
        rw [if_neg]
        intro hcond
        exact hcond.2 hpar
      refine ⟨Or.inl hfix, ?_, by rw [hfix]⟩
      intro _
      rw [hfix]
      exact hpar
    · have hfix : parityFix (L ++ [b]) =
          (L ++ [b]).dropLast ++ [1 - (L ++ [b]).getLastD 0] := by
        unfold parityFix
        rw [if_pos ⟨by simp, hpar⟩]
      refine ⟨Or.inr hfix, ?_, ?_⟩
      · intro _
        rw [hfix, hdrop, hlast]
        simp only [List.sum_append, List.sum_cons, List.sum_nil] at hpar ⊢
        omega
      · rw [hfix, hdrop, hlast]
        simp

/-- C8: the returned QKD key is the sifted key (Alice's bits exactly at
the positions where the two basis sequences match), except that its final
retained bit is flipped when the sifted parity was odd; whenever the
returned list is non-empty, its bit sum is even. -/
theorem generate_qkd_key_sifted_even_parity
    (alice_bits : List Nat) (alice_bases bob_bases : List String)
    (measRand : List Nat) (noiseCoins : List Bool)
    (hbits : ∀ b ∈ alice_bits, b ≤ 1) :
    (generate_qkd_key alice_bits alice_bases bob_bases measRand noiseCoins =
        siftKey alice_bits alice_bases bob_bases ∨
      generate_qkd_key alice_bits alice_bases bob_bases measRand noiseCoins =
        (siftKey alice_bits alice_bases bob_bases).dropLast ++
          [1 - (siftKey alice_bits alice_bases bob_bases).getLastD 0]) ∧
    (generate_qkd_key alice_bits alice_bases bob_bases measRand noiseCoins ≠ [] →
      (generate_qkd_key alice_bits alice_bases bob_bases measRand noiseCoins).sum % 2
        = 0) ∧
    (generate_qkd_key alice_bits alice_bases bob_bases measRand noiseCoins).length =
      (siftKey alice_bits alice_bases bob_bases).length := by
  have hsift : ∀ b ∈ siftKey alice_bits alice_bases bob_bases, b ≤ 1 :=
    fun b hbmem => hbits b (siftKey_mem b hbmem)
  exact parityFix_spec (siftKey alice_bits alice_bases bob_bases) hsift

/-- Witness for C8 at concrete bases: positions 0 and 2 match, the sifted
key is `[1, 1]`, already of even parity. -/
theorem generate_qkd_key_sifted_even_parity_witness :
    (∀ b ∈ [1, 0, 1], b ≤ 1) ∧
    (generate_qkd_key [1, 0, 1] ["X", "Z", "X"] ["X", "X", "X"] [0] [true] =
        siftKey [1, 0, 1] ["X", "Z", "X"] ["X", "X", "X"] ∨
      generate_qkd_key [1, 0, 1] ["X", "Z", "X"] ["X", "X", "X"] [0] [true] =
        (siftKey [1, 0, 1] ["X", "Z", "X"] ["X", "X", "X"]).dropLast ++
          [1 - (siftKey [1, 0, 1] ["X", "Z", "X"] ["X", "X", "X"]).getLastD 0]) ∧
    (generate_qkd_key [1, 0, 1] ["X", "Z", "X"] ["X", "X", "X"] [0] [true] ≠ [] →
      (generate_qkd_key [1, 0, 1] ["X", "Z", "X"] ["X", "X", "X"] [0] [true]).sum % 2
        = 0) :=
  ⟨by decide,
   (generate_qkd_key_sifted_even_parity [1, 0, 1] ["X", "Z", "X"] ["X", "X", "X"]
      [0] [true] (by decide)).1,
   (generate_qkd_key_sifted_even_parity [1, 0, 1] ["X", "Z", "X"] ["X", "X", "X"]
      [0] [true] (by decide)).2.1⟩

/-! ## Base64 round trip -/

/-- Encoding and decoding the alphabet agree on 6-bit values. -/
theorem b64_char_val : ∀ n, n < 64 → b64Val (b64Char n) = n := by decide

/-- Alphabet characters are never the padding character. -/
theorem b64Char_ne_eqsign (n : Nat) : b64Char n ≠ '=' := by
  rcases Nat.lt_or_ge n 64 with hn | hn
  · revert hn
    revert n
    decide
  · unfold b64Char
    have hlen : b64Alphabet.length ≤ n := by
      have h64 : b64Alphabet.length = 64 := rfl
      omega
    rw [List.getD_eq_default _ _ hlen]
    decide

/-- Filtering `=` out of a list keeps a non-padding head. -/
theorem filter_pad_cons_of_ne {c : Char} (cs : List Char) (h : c ≠ '=') :
    (c :: cs).filter (fun x => x ≠ '=') = c :: cs.filter (fun x => x ≠ '=') := by
  simp [List.filter_cons, h]

/-- Filtering `=` out of a list drops a padding head. -/
theorem filter_pad_cons_eq (cs : List Char) :
    ('=' :: cs).filter (fun x => x ≠ '=') = cs.filter (fun x => x ≠ '=') := by
  simp [List.filter_cons]

/-- Decoding the padding-stripped, value-mapped characters of an encoding
recovers the original bytes (for any sufficient decode fuel). -/
theorem b64_decode_encode_chunks :
    ∀ (fuel : Nat) (l : List Nat), l.length ≤ fuel → (∀ b ∈ l, b < 256) →
      ∀ dfuel, l.length ≤ dfuel →
        b64DecodeVals dfuel
          (((b64EncodeChunks fuel l).filter (fun c => c ≠ '=')).map b64Val) = l := by
  intro fuel
  induction fuel with
  | zero =>
    intro l hlen hval dfuel hdlen
    have hnil : l = [] := List.eq_nil_of_length_eq_zero (Nat.le_zero.1 hlen)
    subst hnil
    cases dfuel <;> simp [b64EncodeChunks, b64DecodeVals]
  | succ f ih =>
    intro l hlen hval dfuel hdlen
    rcases l with _ | ⟨b0, _ | ⟨b1, _ | ⟨b2, rest⟩⟩⟩
    · cases dfuel <;> simp [b64EncodeChunks, b64DecodeVals]
    · have hb0 : b0 < 256 := hval b0 (by simp)
      rcases dfuel with _ | d
      · simp at hdlen
      · simp only [b64EncodeChunks]
        rw [filter_pad_cons_of_ne _ (b64Char_ne_eqsign _),
          filter_pad_cons_of_ne _ (b64Char_ne_eqsign _), filter_pad_cons_eq,
          filter_pad_cons_eq]
        simp only [List.filter_nil, List.map_cons, List.map_nil,
          b64_char_val _ (by omega : b0 / 4 < 64),
          b64_char_val _ (by omega : b0 % 4 * 16 < 64), b64DecodeVals]
        congr 1
        omega
    · have hb0 : b0 < 256 := hval b0 (by simp)
      have hb1 : b1 < 256 := hval b1 (by simp)
      rcases dfuel with _ | d
      · simp at hdlen
      · simp only [b64EncodeChunks]
        rw [filter_pad_cons_of_ne _ (b64Char_ne_eqsign _),
          filter_pad_cons_of_ne _ (b64Char_ne_eqsign _),
          filter_pad_cons_of_ne _ (b64Char_ne_eqsign _), filter_pad_cons_eq]
        simp only [List.filter_nil, List.map_cons, List.map_nil,
          b64_char_val _ (by omega : b0 / 4 < 64),
          b64_char_val _ (by omega : b0 % 4 * 16 + b1 / 16 < 64),
          b64_char_val _ (by omega : b1 % 16 * 4 < 64), b64DecodeVals]
        congr 1
        · omega
        · congr 1
          omega
    · have hb0 : b0 < 256 := hval b0 (by simp)
      have hb1 : b1 < 256 := hval b1 (by simp)
      have hb2 : b2 < 256 := hval b2 (by simp)
      have hrest : ∀ b ∈ rest, b < 256 := fun b hb => hval b (by simp [hb])
      simp only [List.length_cons] at hlen hdlen
      rcases dfuel with _ | d
      · simp at hdlen
      · simp only [b64EncodeChunks]
        rw [filter_pad_cons_of_ne _ (b64Char_ne_eqsign _),
          filter_pad_cons_of_ne _ (b64Char_ne_eqsign _),
          filter_pad_cons_of_ne _ (b64Char_ne_eqsign _),
          filter_pad_cons_of_ne _ (b64Char_ne_eqsign _)]
        simp only [List.map_cons,
          b64_char_val _ (by omega : b0 / 4 < 64),
          b64_char_val _ (by omega : b0 % 4 * 16 + b1 / 16 < 64),
          b64_char_val _ (by omega : b1 % 16 * 4 + b2 / 64 < 64),
          b64_char_val _ (by omega : b2 % 64 < 64), b64DecodeVals,
          List.cons.injEq]
        refine ⟨by omega, by omega, by omega, ?_⟩
        exact ih rest (by omega) hrest d (by omega)

/-- Padding-stripped encodings are at least as long as the bytes they
encode. -/
theorem b64_encode_filter_length :
    ∀ (fuel : Nat) (l : List Nat), l.length ≤ fuel →
      l.length ≤ ((b64EncodeChunks fuel l).filter (fun c => c ≠ '=')).length := by
  intro fuel
  induction fuel with
  | zero =>
    intro l hlen
    simp [List.eq_nil_of_length_eq_zero (Nat.le_zero.1 hlen), b64EncodeChunks]
  | succ f ih =>
    intro l hlen
    rcases l with _ | ⟨b0, _ | ⟨b1, _ | ⟨b2, rest⟩⟩⟩
    · simp [b64EncodeChunks]
    · simp only [b64EncodeChunks]
      rw [filter_pad_cons_of_ne _ (b64Char_ne_eqsign _),
        filter_pad_cons_of_ne _ (b64Char_ne_eqsign _), filter_pad_cons_eq,
        filter_pad_cons_eq]
      simp
    · simp only [b64EncodeChunks]
      rw [filter_pad_cons_of_ne _ (b64Char_ne_eqsign _),
        filter_pad_cons_of_ne _ (b64Char_ne_eqsign _),
        filter_pad_cons_of_ne _ (b64Char_ne_eqsign _), filter_pad_cons_eq]
      simp
    · simp only [List.length_cons] at hlen
      simp only [b64EncodeChunks]
      rw [filter_pad_cons_of_ne _ (b64Char_ne_eqsign _),
        filter_pad_cons_of_ne _ (b64Char_ne_eqsign _),
        filter_pad_cons_of_ne _ (b64Char_ne_eqsign _),
        filter_pad_cons_of_ne _ (b64Char_ne_eqsign _)]
      simp only [List.length_cons]
      have := ih rest (by omega)
      omega

/-- Base64 decoding inverts encoding on byte lists. -/
theorem b64_roundtrip (l : List Nat) (h : ∀ b ∈ l, b < 256) :
    b64_decode (b64_encode l) = l := by
  have hlen := b64_encode_filter_length l.length l le_rfl
  have hmain := b64_decode_encode_chunks l.length l le_rfl h
    (((b64EncodeChunks l.length l).filter (fun c => c ≠ '=')).map b64Val).length
    (by simpa using hlen)
  simpa [b64_decode, b64_encode] using hmain

/-! ## C7 — QKD session distributes one identical 32-byte key -/

/-- `derive_aes_key_from_qkd` unfolded: the SHA-256 of the rendered bit
string (deterministic because it is a pure function of the bit list). -/
theorem derive_aes_key_eq (k : List Nat) :
    derive_aes_key_from_qkd k =
      sha256 (strBytes (String.join (k.map natStr))) := rfl

/-- C7: when both parties are registered, `start_qkd_session` emits exactly
one `qkd_shared_key` event to each of the two sids, both carrying the
same `shared_b64`, and that value decodes to the derived key of exactly
32 bytes. -/
theorem qkd_session_distributes_identical_key
    (users : Users) (ini p : String) (iInfo pInfo : UserInfo)
    (hini : ini ≠ "") (hp : p ≠ "")
    (hI : usersLookup users ini = some iInfo)
    (hP : usersLookup users p = some pInfo)
    (alice_bits : List Nat) (alice_bases bob_bases : List String)
    (measRand : List Nat) (noiseCoins : List Bool) :
    handle_start_qkd_session users (some ini) (some p) alice_bits alice_bases
        bob_bases measRand noiseCoins =
      [.qkdSharedKey iInfo.sid p
         (b64_encode (derive_aes_key_from_qkd
           (generate_qkd_key alice_bits alice_bases bob_bases measRand noiseCoins))),
       .qkdSharedKey pInfo.sid ini
         (b64_encode (derive_aes_key_from_qkd
           (generate_qkd_key alice_bits alice_bases bob_bases measRand noiseCoins)))] ∧
    b64_decode (b64_encode (derive_aes_key_from_qkd
        (generate_qkd_key alice_bits alice_bases bob_bases measRand noiseCoins))) =
      derive_aes_key_from_qkd
        (generate_qkd_key alice_bits alice_bases bob_bases measRand noiseCoins) ∧
    (derive_aes_key_from_qkd
        (generate_qkd_key alice_bits alice_bases bob_bases measRand noiseCoins)).length
      = 32 := by
  refine ⟨?_, ?_, ?_⟩
  · simp [handle_start_qkd_session, hini, hp, hI, hP]
  · refine b64_roundtrip _ ?_
    rw [derive_aes_key_eq]
    exact sha256_mem_lt _
  · rw [derive_aes_key_eq]
    exact sha256_length _

/-- Witness for C7 on the two-user demo registry with a short bit run. -/
theorem qkd_session_distributes_identical_key_witness :
    handle_start_qkd_session demoUsers (some "Alice") (some "Bob") [1, 0, 1]
        ["X", "Z", "X"] ["X", "X", "Z"] [0] [false] =
      [.qkdSharedKey 1 "Bob"
         (b64_encode (derive_aes_key_from_qkd
           (generate_qkd_key [1, 0, 1] ["X", "Z", "X"] ["X", "X", "Z"] [0] [false]))),
       .qkdSharedKey 2 "Alice"
         (b64_encode (derive_aes_key_from_qkd
           (generate_qkd_key [1, 0, 1] ["X", "Z", "X"] ["X", "X", "Z"] [0] [false])))] ∧
    b64_decode (b64_encode (derive_aes_key_from_qkd
        (generate_qkd_key [1, 0, 1] ["X", "Z", "X"] ["X", "X", "Z"] [0] [false]))) =
      derive_aes_key_from_qkd
        (generate_qkd_key [1, 0, 1] ["X", "Z", "X"] ["X", "X", "Z"] [0] [false]) ∧
    (derive_aes_key_from_qkd
        (generate_qkd_key [1, 0, 1] ["X", "Z", "X"] ["X", "X", "Z"] [0] [false])).length
      = 32 :=
  qkd_session_distributes_identical_key demoUsers "Alice" "Bob"
    { sid := 1, pub := "PK_A", kyber := some ([3], [4]) }
    { sid := 2, pub := "PK_B", kyber := some ([5], [6]) }
    (by decide) (by decide) (by decide) (by decide)
    [1, 0, 1] ["X", "Z", "X"] ["X", "X", "Z"] [0] [false]

/-! ## C1 — KEM encapsulate/decapsulate agreement, real and simulated -/

/-- C1: for both supported algorithms, decapsulating the ciphertext of
`pqc_encapsulate` with the matching secret key from `generate_pqc_keypair`
yields exactly the encapsulated shared secret — in real mode by KEM
correctness of the loaded backend, in simulated mode (`lib = none`)
because both sides are the fixed secret, the truncated SHA-256 of the
algorithm's constant label. -/
theorem pqc_decapsulate_roundtrip
    (algorithm : String) (kyberLib frodoLib : Option KemLib)
    (rg re : PqcRand) (pk sk ct ss : List Nat)
    (halgo : algorithm = "kyber" ∨ algorithm = "frodo")
    (hky : ∀ l, kyberLib = some l → KemCorrect l)
    (hfr : ∀ l, frodoLib = some l → KemCorrect l)
    (hgen : generate_pqc_keypair kyberLib frodoLib rg algorithm = .ok (pk, sk))
    (henc : pqc_encapsulate kyberLib frodoLib re pk algorithm = .ok (ct, ss)) :
    pqc_decapsulate kyberLib frodoLib sk ct algorithm = .ok ss ∧
    (algorithm = "kyber" → kyberLib = none → ss = SIMULATED_KYBER_SECRET) ∧
    (algorithm = "frodo" → frodoLib = none → ss = SIMULATED_FRODO_SECRET) := by
  rcases halgo with rfl | rfl
  · cases kyberLib with
    | none =>
      have hgen' : pk = rg.pkSim ∧ sk = rg.skSim := by
        simpa [generate_pqc_keypair, generate_kyber_keypair, eq_comm] using hgen
      have henc' : ct = re.ctSim ∧ ss = SIMULATED_KYBER_SECRET := by
        simpa [pqc_encapsulate, kyber_encapsulate_with_pk, eq_comm] using henc
      simp [pqc_decapsulate, kyber_decapsulate_with_sk, henc'.2]
    | some l =>
      have hgen' : l.keygen rg.keyRand = (pk, sk) := by
        simpa [generate_pqc_keypair, generate_kyber_keypair] using hgen
      have henc' : l.encaps pk re.keyRand = (ct, ss) := by
        simpa [pqc_encapsulate, kyber_encapsulate_with_pk] using henc
      have hc := hky l rfl rg.keyRand re.keyRand
      rw [hgen'] at hc
      simp only at hc
      rw [henc'] at hc
      simp only at hc
      refine ⟨?_, by simp, by simp⟩
      simp [pqc_decapsulate, kyber_decapsulate_with_sk, hc]
  · cases frodoLib with
    | none =>
      have hgen' : pk = rg.pkSim ∧ sk = rg.skSim := by
        simpa [generate_pqc_keypair, generate_frodo_keypair, eq_comm] using hgen
      have henc' : ct = re.ctSim ∧ ss = SIMULATED_FRODO_SECRET := by
        simpa [pqc_encapsulate, frodo_encapsulate_with_pk, eq_comm] using henc
      simp [pqc_decapsulate, frodo_decapsulate_with_sk, henc'.2]
    | some l =>
      have hgen' : l.keygen rg.keyRand = (pk, sk) := by
        simpa [generate_pqc_keypair, generate_frodo_keypair] using hgen
      have henc' : l.encaps pk re.keyRand = (ct, ss) := by
        simpa [pqc_encapsulate, frodo_encapsulate_with_pk] using henc
      have hc := hfr l rfl rg.keyRand re.keyRand
      rw [hgen'] at hc
      simp only at hc
      rw [henc'] at hc
      simp only at hc
      refine ⟨?_, by simp, by simp⟩
      simp [pqc_decapsulate, frodo_decapsulate_with_sk, hc]

/-- Witness for C1: the simulated-mode kyber round trip at concrete
randomness, with both sides the fixed hashed-label secret. -/
theorem pqc_decapsulate_roundtrip_witness :
    generate_pqc_keypair none none ⟨[1], [2], [3], [4]⟩ "kyber" = .ok ([2], [3]) ∧
    pqc_encapsulate none none ⟨[1], [2], [3], [4]⟩ [2] "kyber" =
      .ok ([4], SIMULATED_KYBER_SECRET) ∧
    pqc_decapsulate none none [3] [4] "kyber" = .ok SIMULATED_KYBER_SECRET :=
  ⟨rfl, rfl,
    (pqc_decapsulate_roundtrip "kyber" none none ⟨[1], [2], [3], [4]⟩
      ⟨[1], [2], [3], [4]⟩ [2] [3] [4] SIMULATED_KYBER_SECRET (Or.inl rfl)
      (by intro l h; cases h) (by intro l h; cases h) rfl rfl).1⟩

/-! ## C3 — session events and the peers' classical public keys -/

/-- C3, evaluated at the failing input: Alice and Bob register with
classical public keys `PK_A` / `PK_B` (stored under the info-dict key
`"pub"`), yet the `kyber_shared_for_initiator` event delivered to Alice
carries `peer_x25519_b64 = none` — not Bob's registered key — because the
handler reads the absent key `"x25519_pub_b64"`; symmetrically
`initiator_x25519_b64 = none` in Bob's event. -/
theorem session_events_lack_classical_key :
    usersLookup demoUsers "Alice" =
      some { sid := 1, pub := "PK_A", kyber := some ([3], [4]) } ∧
    usersLookup demoUsers "Bob" =
      some { sid := 2, pub := "PK_B", kyber := some ([5], [6]) } ∧
    handle_request_start demoUsers (some "Alice") (some "Bob") ⟨[9], [8]⟩ =
      [.kyberSharedForInitiator 1 "Bob" (b64_encode [8]) none (b64_encode [9]),
       .kyberReadyPeer 2 "Alice" (b64_encode [9]) none (b64_encode [8]),
       .sessionInitiated true,
       .kyberSharedForInitiator 1 "Bob" (b64_encode [8]) none (b64_encode [9]),
       .kyberReadyPeer 2 "Alice" (b64_encode [9]) none (b64_encode [8]),
       .sessionInitiated true] ∧
    (none : Option String) ≠ some "PK_B" := by
  refine ⟨rfl, rfl, by decide, by decide⟩

/-! ## C4 — disconnect unregisters identities bound to a transport -/

/-- Looking up a key that does not occur in an association list yields
`none`. -/
theorem lookup_none_of_not_key (k : String) :
    ∀ l : Users, k ∉ l.map Prod.fst → List.lookup k l = none := by
  intro l
  induction l with
  | nil => intro _; rfl
  | cons v rest ih =>
    obtain ⟨a, b⟩ := v
    intro hk
    simp only [List.map_cons, List.mem_cons, not_or] at hk
    simp [List.lookup, beq_eq_false_iff_ne.2 hk.1, ih hk.2]

/-- Counterexample to C4 as stated: with two identities registered over
the same transport (sid 1), the disconnect handler pops only the first
match and `break`s, so the second identity still resolves afterwards. -/
theorem unregister_leaves_second_binding :
    (("Bob", ({ sid := 1, pub := "PB", kyber := none } : UserInfo)) ∈ sharedSidUsers ∧
      ({ sid := 1, pub := "PB", kyber := none } : UserInfo).sid = 1) ∧
    usersLookup (on_disconnect sharedSidUsers 1) "Bob" =
      some { sid := 1, pub := "PB", kyber := none } := by
  constructor
  · exact ⟨by simp [sharedSidUsers], rfl⟩
  · rfl

/-- C4 amended: after `on_disconnect(addr)`, lookup returns `NotFound`
for every identity bound to addr PROVIDED at most one registered identity
is bound to addr (the handler removes only the first match); usernames are
assumed pairwise distinct, as the dict `USERS` guarantees. -/
theorem unregister_by_transport_removes_binding
    (users : Users) (addr : Nat)
    (hkeys : (users.map Prod.fst).Nodup)
    (hone : (users.filter (fun p => p.2.sid = addr)).length ≤ 1) :
    ∀ u info, (u, info) ∈ users → info.sid = addr →
      usersLookup (on_disconnect users addr) u = none := by
  induction users with
  | nil => intro u info h; cases h
  | cons v rest ih =>
    obtain ⟨vu, vinfo⟩ := v
    intro u info hmem hsid
    simp only [List.map_cons, List.nodup_cons] at hkeys
    simp only [on_disconnect, removeFirstBySid]
    by_cases hv : vinfo.sid = addr
    · simp only [hv, if_true]
      rcases List.mem_cons.1 hmem with heq | hrest
      · obtain ⟨rfl, rfl⟩ := Prod.mk.injEq .. ▸ heq
        exact lookup_none_of_not_key u rest hkeys.1
      · exfalso
        have hfil : List.filter (fun p => decide (p.2.sid = addr)) rest = [] := by
          simpa [List.filter_cons, hv] using hone
        have : (u, info) ∈ List.filter (fun p => decide (p.2.sid = addr)) rest :=
          List.mem_filter.2 ⟨hrest, by simpa using hsid⟩
        rw [hfil] at this
        cases this
    · simp only [hv, if_false]
      rcases List.mem_cons.1 hmem with heq | hrest
      · obtain ⟨rfl, rfl⟩ := Prod.mk.injEq .. ▸ heq
        exact absurd hsid hv
      · have hne : u ≠ vu := by
          intro huv
          exact hkeys.1 (huv ▸ List.mem_map_of_mem Prod.fst hrest)
        have hone' : (rest.filter (fun p => p.2.sid = addr)).length ≤ 1 := by
          have := hone
          simpa [List.filter_cons, hv] using this
        have := ih hkeys.2 hone' u info hrest hsid
        simpa [usersLookup, List.lookup, beq_eq_false_iff_ne.2 hne]
          using this

/-- Witness for C4 amended: a single bound identity is gone after its
transport disconnects. -/
theorem unregister_by_transport_removes_binding_witness :
    (("Alice", ({ sid := 7, pub := "PA", kyber := none } : UserInfo)) ∈
        [("Alice", ({ sid := 7, pub := "PA", kyber := none } : UserInfo))]) ∧
    usersLookup (on_disconnect
        [("Alice", { sid := 7, pub := "PA", kyber := none })] 7) "Alice" = none :=
  ⟨by simp,
   unregister_by_transport_removes_binding
     [("Alice", { sid := 7, pub := "PA", kyber := none })] 7
     (by simp) (by simp) "Alice" { sid := 7, pub := "PA", kyber := none }
     (by simp) rfl⟩

/-! ## C2 — sealing then opening an unchanged envelope -/

/-- Content extraction reads only the `ciphertext_b64` and `message`
fields. -/
theorem envContent_mk (cb msg ts fr integ rest) :
    envContent ⟨cb, msg, ts, fr, integ, rest⟩ =
      (if cb.getD "" ≠ "" then cb.getD "" else msg.getD "") := rfl

/-- Sender extraction reads only the `from` field. -/
theorem envSender_mk (cb msg ts fr integ rest) :
    envSender ⟨cb, msg, ts, fr, integ, rest⟩ = fr.getD "unknown" := rfl

/-- Counterexample to C2 as stated: an envelope whose `timestamp` key is
present but holds the empty string is sealed over that empty timestamp,
yet opening rejects it with the missing-timestamp error (Python's
`if not timestamp` treats `''` as absent); moreover, for an envelope with
no timestamp at all, sealing populates the field, so the sealed envelope's
timestamp is not that of M. -/
theorem seal_open_roundtrip_counterexample :
    verify_message_integrity [1, 2, 3]
        (wrap_outgoing_message [1, 2, 3] 0
          { ciphertext_b64 := some "x", message := none, timestamp := some "",
            fromId := some "Alice", integrity := none, rest := [] }) =
      (false, "Missing timestamp - cannot verify integrity") ∧
    (wrap_outgoing_message [1, 2, 3] 1700000000000 demoMsg).timestamp ≠
      demoMsg.timestamp := by
  constructor
  · decide
  · decide

/-- C2 amended: sealing and then opening an envelope whose content,
timestamp and sender are untouched in between succeeds with no error,
PROVIDED the envelope's timestamp, if present, is non-empty; the sealed
envelope's non-integrity fields are those of M, except that a missing
timestamp is populated (with the sealing wall clock) at sealing time. -/
theorem seal_open_roundtrip
    (secret : List Nat) (nowMs : Nat) (M : Envelope)
    (hts : M.timestamp ≠ some "") :
    verify_message_integrity secret (wrap_outgoing_message secret nowMs M) =
      (true, "") ∧
    (wrap_outgoing_message secret nowMs M).ciphertext_b64 = M.ciphertext_b64 ∧
    (wrap_outgoing_message secret nowMs M).message = M.message ∧
    (wrap_outgoing_message secret nowMs M).fromId = M.fromId ∧
    (wrap_outgoing_message secret nowMs M).rest = M.rest ∧
    (∀ ts, M.timestamp = some ts →
      (wrap_outgoing_message secret nowMs M).timestamp = some ts) := by
  obtain ⟨cb, msg, ts, fr, integ, rest⟩ := M
  cases ts with
  | none =>
    refine ⟨?_, rfl, rfl, rfl, rfl, ?_⟩
    · simp [wrap_outgoing_message, add_message_integrity,
        verify_message_integrity, natStr_ne_empty, generate_hmac_ne_empty,
        envContent_mk, envSender_mk]
    · intro t ht
      cases ht
  | some t =>
    have ht : t ≠ "" := by
      intro h
      exact hts (by rw [h])
    refine ⟨?_, rfl, rfl, rfl, rfl, ?_⟩
    · simp [wrap_outgoing_message, add_message_integrity,
        verify_message_integrity, ht, generate_hmac_ne_empty,
        envContent_mk, envSender_mk]
    · intro t' ht'
      simp only [Option.some.injEq] at ht'
      subst ht'
      rfl

/-- Witness for C2 amended at a concrete message with no preset
timestamp. -/
theorem seal_open_roundtrip_witness :
    demoMsg.timestamp ≠ some "" ∧
    verify_message_integrity [1, 2, 3]
        (wrap_outgoing_message [1, 2, 3] 1700000000000 demoMsg) = (true, "") :=
  ⟨by decide,
   (seal_open_roundtrip [1, 2, 3] 1700000000000 demoMsg (by decide)).1⟩

/-! ## C5 — tampering with one sealed field -/

/-- A sealed envelope's integrity field holds exactly the HMAC of its own
content, timestamp and sender. -/
theorem sealed_integrity_eq (secret : List Nat) (nowMs : Nat) (M : Envelope) :
    (wrap_outgoing_message secret nowMs M).integrity =
      some (.mk (some "HMAC_SHA256")
        (some (generate_hmac
          (envContent (wrap_outgoing_message secret nowMs M))
          ((wrap_outgoing_message secret nowMs M).timestamp.getD "")
          (envSender (wrap_outgoing_message secret nowMs M)) secret))) := by
  obtain ⟨cb, msg, ts, fr, integ, rest⟩ := M
  cases ts <;>
    simp [wrap_outgoing_message, add_message_integrity, envContent_mk,
      envSender_mk]

/-- Counterexample to C5 as stated: altering exactly the timestamp of a
sealed envelope — to the empty string — while leaving the tag in place
makes opening fail with the missing-timestamp error, not the HMAC-mismatch
error (the timestamp check precedes the tag comparison). -/
theorem tampered_field_mismatch_counterexample :
    verify_message_integrity [1, 2, 3]
        { wrap_outgoing_message [1, 2, 3] 1700000000000 demoMsg with
            timestamp := some "" } =
      (false, "Missing timestamp - cannot verify integrity") ∧
    (false, "Missing timestamp - cannot verify integrity") ≠
      ((false, "HMAC mismatch - message has been tampered with") :
        Bool × String) := by
  constructor
  · decide
  · decide

/-- C5 amended: altering exactly one of content, timestamp or sender of a
sealed envelope (leaving the tag in place) changes the signed
`content|timestamp|sender` string, and — provided the altered timestamp is
still non-empty and HMAC-SHA256 does not collide on the two distinct
signed strings — opening returns exactly the HMAC-mismatch error. -/
theorem tampered_field_mismatch
    (secret : List Nat) (nowMs : Nat) (M : Envelope) (altered : Envelope)
    (hint : altered.integrity = (wrap_outgoing_message secret nowMs M).integrity)
    (halter :
      (envContent altered ≠ envContent (wrap_outgoing_message secret nowMs M) ∧
        altered.timestamp.getD "" =
          (wrap_outgoing_message secret nowMs M).timestamp.getD "" ∧
        envSender altered = envSender (wrap_outgoing_message secret nowMs M)) ∨
      (envContent altered = envContent (wrap_outgoing_message secret nowMs M) ∧
        altered.timestamp.getD "" ≠
          (wrap_outgoing_message secret nowMs M).timestamp.getD "" ∧
        envSender altered = envSender (wrap_outgoing_message secret nowMs M)) ∨
      (envContent altered = envContent (wrap_outgoing_message secret nowMs M) ∧
        altered.timestamp.getD "" =
          (wrap_outgoing_message secret nowMs M).timestamp.getD "" ∧
        envSender altered ≠ envSender (wrap_outgoing_message secret nowMs M)))
    (hts' : altered.timestamp.getD "" ≠ "")
    (hnocol : generate_hmac (envContent altered) (altered.timestamp.getD "")
        (envSender altered) secret ≠
      generate_hmac (envContent (wrap_outgoing_message secret nowMs M))
        ((wrap_outgoing_message secret nowMs M).timestamp.getD "")
        (envSender (wrap_outgoing_message secret nowMs M)) secret) :
    (envContent altered ++ "|" ++ altered.timestamp.getD "" ++ "|" ++
        envSender altered) ≠
      (envContent (wrap_outgoing_message secret nowMs M) ++ "|" ++
        (wrap_outgoing_message secret nowMs M).timestamp.getD "" ++ "|" ++
        envSender (wrap_outgoing_message secret nowMs M)) ∧
    verify_message_integrity secret altered =
      (false, "HMAC mismatch - message has been tampered with") := by
  constructor
  · intro hstr
    have hdata := congrArg String.data hstr
    simp only [String.data_append] at hdata
    rcases halter with ⟨hc, ht, hs⟩ | ⟨hc, ht, hs⟩ | ⟨hc, ht, hs⟩
    · rw [ht, hs] at hdata
      simp at hdata
      exact hc (String.ext hdata)
    · rw [hc, hs] at hdata
      simp at hdata
      exact ht (String.ext hdata)
    · rw [hc, ht] at hdata
      simp at hdata
      exact hs (String.ext hdata)
  · have hstored := hint.trans (sealed_integrity_eq secret nowMs M)
    simp [verify_message_integrity, hstored, generate_hmac_ne_empty, hts',
      Ne.symm hnocol]

/-- Witness for C5 amended: the sender of a concrete sealed message is
changed from Alice to Mallory; the recomputed HMAC differs and opening
reports the mismatch. -/
theorem tampered_field_mismatch_witness :
    verify_message_integrity [1, 2, 3]
        { wrap_outgoing_message [1, 2, 3] 1700000000000 demoMsg with
            fromId := some "Mallory" } =
      (false, "HMAC mismatch - message has been tampered with") :=
  (tampered_field_mismatch [1, 2, 3] 1700000000000 demoMsg
    { wrap_outgoing_message [1, 2, 3] 1700000000000 demoMsg with
        fromId := some "Mallory" }
    rfl
    (Or.inr (Or.inr ⟨rfl, rfl, by decide⟩))
    (by decide) (by decide)).2

/-! ## C9 — signature verification gates encapsulation -/

/-- C9: when verification of the received KEM public key fails,
`client_verify_and_encapsulate` aborts with the invalid-signature error
(the encapsulation branch is never taken), and dually any successful
encapsulation implies the verification returned true. -/
theorem client_aborts_on_bad_signature
    (signLib : Option SignLib) (kyberLib frodoLib : Option KemLib)
    (r : PqcRand) (hs : HandshakeData) :
    (dilithium_verify_signature signLib hs.dilithium_public_key
        hs.pqc_public_key hs.signature = false →
      client_verify_and_encapsulate signLib kyberLib frodoLib r hs =
        .error "Invalid PQC public key signature") ∧
    (∀ out, client_verify_and_encapsulate signLib kyberLib frodoLib r hs = .ok out →
      dilithium_verify_signature signLib hs.dilithium_public_key
        hs.pqc_public_key hs.signature = true) := by
  constructor
  · intro h
    simp [client_verify_and_encapsulate, h]
  · intro out hok
    cases hvalid : dilithium_verify_signature signLib hs.dilithium_public_key
        hs.pqc_public_key hs.signature with
    | true => rfl
    | false =>
      rw [client_verify_and_encapsulate] at hok
      simp only [hvalid] at hok
      cases hok

/-- Witness for C9: a concrete simulated-mode handshake whose signature
does not match the recomputed hash is rejected without encapsulation. -/
theorem client_aborts_on_bad_signature_witness :
    dilithium_verify_signature none [9] [1] [] = false ∧
    client_verify_and_encapsulate none none none ⟨[], [], [], []⟩
      { pqc_public_key := [1], dilithium_public_key := [9], signature := [],
        pqc_algorithm := "kyber" } =
      .error "Invalid PQC public key signature" :=
  ⟨by decide,
   (client_aborts_on_bad_signature none none none ⟨[], [], [], []⟩
      { pqc_public_key := [1], dilithium_public_key := [9], signature := [],
        pqc_algorithm := "kyber" }).1 (by decide)⟩

end CryptexQ
